import Mathlib

/-!
Shallow embedding of the myTodoist core (src/src/todo.c, src/src/file_io.c,
src/include/todo.h) and proofs about its specified properties.

Modelling conventions:
- C strings (`char title[MAX_TITLE_LENGTH]`, `char description[MAX_DESC_LENGTH]`)
  are modelled as Lean `String`s; `strlen` becomes `String.length`.  The C code
  copies a string only after checking `strlen < MAX`, in which case `strncpy`
  with bound `MAX-1` copies the string verbatim, so the verbatim copy in the
  model is exact on all paths that occur.
- `time_t` is modelled as `Int`; every C function that calls `time(NULL)`
  takes the current time as an explicit `now : Int` argument.
- The C enum `Priority` is carried as `Int` (C enums are integers and
  `todo_update` receives the priority as a plain `int`, applying it only when
  it lies in [PRIORITY_LOW, PRIORITY_HIGH]).
- `TodoList` holds its live records as a `List Todo`; the C `count` field
  (which always equals the number of live records in the prefix of the backing
  array) is `todos.length`.
- C functions that mutate the list and return a status code are modelled as
  functions returning `Option TodoError × TodoList` (`none` = the C functions'
  return 0; `some e` = return -1, with `e` identifying which error branch
  fired, distinguishable in C by the message printed).
-/

/-- MAX_TITLE_LENGTH from todo.h. -/
def MAX_TITLE_LENGTH : Nat := 100

/-- MAX_DESC_LENGTH from todo.h. -/
def MAX_DESC_LENGTH : Nat := 500

/-- MAX_TODOS from todo.h. -/
def MAX_TODOS : Nat := 1000

/-- PRIORITY_LOW from todo.h. -/
def PRIORITY_LOW : Int := 1

/-- PRIORITY_MEDIUM from todo.h. -/
def PRIORITY_MEDIUM : Int := 2

/-- PRIORITY_HIGH from todo.h. -/
def PRIORITY_HIGH : Int := 3

/-- The `Status` enum from todo.h: STATUS_PENDING = 0, STATUS_COMPLETED = 1. -/
inductive Status where
  | pending
  | completed
deriving Repr, DecidableEq

/-- The `Todo` struct from todo.h. -/
structure Todo where
  id : Int
  title : String
  description : String
  priority : Int
  status : Status
  created_at : Int
  updated_at : Int
deriving Repr, DecidableEq

/-- The `TodoList` struct from todo.h; `count` is `todos.length`. -/
structure TodoList where
  todos : List Todo
  capacity : Nat
  next_id : Int
deriving Repr, DecidableEq

/-- Distinguishable failure branches of the core operations (in C all signal
return -1, told apart by the message printed on the failing branch). -/
inductive TodoError where
  | capacityExceeded
  | validationError
  | notFound
deriving Repr, DecidableEq

/-- `todo_list_create` (todo.c): the freshly initialized store: no records,
capacity MAX_TODOS, next_id 1.  (The C allocation-failure paths return NULL
and create no store at all; the successful result is this value.) -/
def todo_list_create : TodoList :=
  { todos := [], capacity := MAX_TODOS, next_id := 1 }

/-- `todo_create` (todo.c lines 58-100).  Checks in source order:
the `!list || !title || count >= capacity` guard (list and title are always
present in the model, so the branch is exactly the capacity check), then the
title length, then the description length (only when a description is given).
On success appends the new record, increments next_id, and returns the
fresh id. -/
def todo_create (list : TodoList) (title : String) (description : Option String)
    (priority : Int) (now : Int) : Except TodoError Int × TodoList :=
  if list.todos.length ≥ list.capacity then
    (.error .capacityExceeded, list)
  else if title.length ≥ MAX_TITLE_LENGTH then
    (.error .validationError, list)
  else if description.any (fun d => d.length ≥ MAX_DESC_LENGTH) then
    (.error .validationError, list)
  else
    let new_todo : Todo :=
      { id := list.next_id
        title := title
        description := description.getD ""
        priority := priority
        status := .pending
        created_at := now
        updated_at := now }
    (.ok list.next_id,
     { list with todos := list.todos ++ [new_todo], next_id := list.next_id + 1 })

/-- `todo_find_by_id` (todo.c lines 310-322): linear scan, first match. -/
def todo_find_by_id (list : TodoList) (id : Int) : Option Todo :=
  list.todos.find? (fun t => t.id == id)

/-- The priority phase and updated_at refresh of `todo_update` (todo.c
lines 207-213): the priority is copied only when it lies in
[PRIORITY_LOW, PRIORITY_HIGH]; updated_at is always refreshed here. -/
def todo_update_record_prio (t : Todo) (priority now : Int) :
    Option TodoError × Todo :=
  if PRIORITY_LOW ≤ priority ∧ priority ≤ PRIORITY_HIGH then
    (none, { t with priority := priority, updated_at := now })
  else
    (none, { t with updated_at := now })

/-- The description phase of `todo_update` (todo.c lines 197-205): when a
description is provided it is validated and then copied; a validation
failure returns immediately with the record as it stands. -/
def todo_update_record_desc (t : Todo) (description : Option String)
    (priority now : Int) : Option TodoError × Todo :=
  match description with
  | some s =>
    if s.length ≥ MAX_DESC_LENGTH then (some .validationError, t)
    else todo_update_record_prio { t with description := s } priority now
  | none => todo_update_record_prio t priority now

/-- The body of `todo_update` (todo.c lines 186-216) acting on the found
record: title phase (validate, then copy), then the description and
priority phases.  A validation failure returns immediately, keeping
whatever earlier phases already wrote — exactly as the C code does. -/
def todo_update_record (t : Todo) (title description : Option String)
    (priority now : Int) : Option TodoError × Todo :=
  match title with
  | some s =>
    if s.length ≥ MAX_TITLE_LENGTH then (some .validationError, t)
    else todo_update_record_desc { t with title := s } description priority now
  | none => todo_update_record_desc t description priority now

/-- `todo_update` on the record sequence: the C code mutates (through the
pointer returned by `todo_find_by_id`) the first record whose id matches;
every other record is untouched. -/
def todo_update_list (todos : List Todo) (id : Int) (title description : Option String)
    (priority now : Int) : Option TodoError × List Todo :=
  match todos with
  | [] => (some .notFound, [])
  | t :: ts =>
    if t.id == id then
      ((todo_update_record t title description priority now).1,
       (todo_update_record t title description priority now).2 :: ts)
    else
      ((todo_update_list ts id title description priority now).1,
       t :: (todo_update_list ts id title description priority now).2)

/-- `todo_update` (todo.c lines 180-217). -/
def todo_update (list : TodoList) (id : Int) (title description : Option String)
    (priority now : Int) : Option TodoError × TodoList :=
  ((todo_update_list list.todos id title description priority now).1,
   { list with todos := (todo_update_list list.todos id title description priority now).2 })

/-- `todo_delete` (todo.c lines 225-252): finds the first index whose id
matches, shifts all subsequent records left by one, and decrements count;
this is erasure of the first match from the record sequence. -/
def todo_delete (list : TodoList) (id : Int) : Option TodoError × TodoList :=
  if list.todos.any (fun t => t.id == id) then
    (none, { list with todos := list.todos.eraseP (fun t => t.id == id) })
  else
    (some .notFound, list)

/-- `todo_complete` (todo.c lines 260-277) on the record sequence: first
match; if already completed, success with no change at all; otherwise set
status to completed and refresh updated_at. -/
def todo_complete_list (todos : List Todo) (id : Int) (now : Int) :
    Option TodoError × List Todo :=
  match todos with
  | [] => (some .notFound, [])
  | t :: ts =>
    if t.id == id then
      if t.status = .completed then (none, t :: ts)
      else (none, { t with status := .completed, updated_at := now } :: ts)
    else
      let r := todo_complete_list ts id now
      (r.1, t :: r.2)

/-- `todo_complete` (todo.c lines 260-277). -/
def todo_complete (list : TodoList) (id : Int) (now : Int) :
    Option TodoError × TodoList :=
  ((todo_complete_list list.todos id now).1,
   { list with todos := (todo_complete_list list.todos id now).2 })

/-- `todo_mark_pending` (todo.c lines 285-302) on the record sequence. -/
def todo_mark_pending_list (todos : List Todo) (id : Int) (now : Int) :
    Option TodoError × List Todo :=
  match todos with
  | [] => (some .notFound, [])
  | t :: ts =>
    if t.id == id then
      if t.status = .pending then (none, t :: ts)
      else (none, { t with status := .pending, updated_at := now } :: ts)
    else
      let r := todo_mark_pending_list ts id now
      (r.1, t :: r.2)

/-- `todo_mark_pending` (todo.c lines 285-302). -/
def todo_mark_pending (list : TodoList) (id : Int) (now : Int) :
    Option TodoError × TodoList :=
  ((todo_mark_pending_list list.todos id now).1,
   { list with todos := (todo_mark_pending_list list.todos id now).2 })

/-! ## Persistence codec (file_io.c)

The binary file is modelled abstractly as its decoded content: the two
header ints and the sequence of fixed-size record blocks.  `fwrite` of the
header and of `count` `Todo` structs is the construction of this value;
`fread` is field access.  A file that does not exist on disk is `none`;
paths where `fopen`/`fread`/`fwrite` themselves fail are the untaken
I/O-success branches and are not modelled (the claims under proof are about
the success and the missing-file paths). -/

/-- The decoded content of the binary todo file (file_io.c):
`[record_count][next_id][record_count × Todo block]`. -/
structure TodoFile where
  saved_count : Int
  saved_next_id : Int
  records : List Todo
deriving Repr, DecidableEq

/-- Errors surfaced by the persistence codec. -/
inductive FileError where
  | ioFailure
  | corruptData
deriving Repr, DecidableEq

/-- `save_todos_to_file` (file_io.c lines 57-101), successful-write path:
writes the header (count, next_id) then the `count` live records in storage
order. -/
def save_todos_to_file (list : TodoList) : TodoFile :=
  { saved_count := (list.todos.length : Int)
    saved_next_id := list.next_id
    records := list.todos }

/-- `load_todos_from_file` (file_io.c lines 109-159).  `file = none` means
the target file does not exist: success, and the list is left as it was
(the caller passes a freshly created empty list).  Otherwise the header is
read, the declared count is validated to lie in [0, MAX_TODOS] (else the
load is rejected), then exactly that many record blocks are read (a short
file makes `fread` fall short: I/O failure); finally count and next_id are
installed verbatim from the header. -/
def load_todos_from_file (list : TodoList) :
    Option TodoFile → Option FileError × TodoList
  | none => (none, list)
  | some f =>
    if f.saved_count < 0 ∨ f.saved_count > (MAX_TODOS : Int) then
      (some .corruptData, list)
    else if f.records.length < f.saved_count.toNat then
      (some .ioFailure, list)
    else
      (none, { list with todos := f.records.take f.saved_count.toNat,
                         next_id := f.saved_next_id })

/-! ## Operation sequences (for the ID-freshness invariant) -/

/-- An operation of a create/delete session against one store.  Creates carry
the arguments the caller would pass, including the wall-clock time observed
inside the call. -/
inductive Op where
  | create (title : String) (description : Option String) (priority : Int) (now : Int)
  | delete (id : Int)

/-- Run a sequence of operations, collecting in order the IDs returned by the
successful creates. -/
def runOps : TodoList → List Op → TodoList × List Int
  | l, [] => (l, [])
  | l, Op.create title d p now :: ops =>
    match todo_create l title d p now with
    | (.ok id, l1) => ((runOps l1 ops).1, id :: (runOps l1 ops).2)
    | (.error _, l1) => runOps l1 ops
  | l, Op.delete id :: ops => runOps (todo_delete l id).2 ops

/-- A sample create/delete session. -/
def sampleOps : List Op :=
  [Op.create "a" none 2 0, Op.create "b" (some "d") 3 1,
   Op.delete 1, Op.create "c" none 1 2]

/-! ## Sample concrete values for witnesses and counterexamples -/

/-- A sample record. -/
def sampleTodo : Todo :=
  { id := 1, title := "a", description := "d", priority := 2,
    status := .pending, created_at := 0, updated_at := 0 }

/-- A store holding just `sampleTodo`. -/
def sampleStore : TodoList :=
  { todos := [sampleTodo], capacity := MAX_TODOS, next_id := 2 }

/-- A store at capacity (capacity 1 with one live record). -/
def fullStore : TodoList :=
  { todos := [sampleTodo], capacity := 1, next_id := 2 }

/-- A string of length MAX_DESC_LENGTH: one character over the longest
description `todo_create`/`todo_update` accept. -/
def longDesc : String := String.mk (List.replicate MAX_DESC_LENGTH 'x')

/-- A string of length MAX_TITLE_LENGTH: one character over the longest
title `todo_create`/`todo_update` accept. -/
def longTitle : String := String.mk (List.replicate MAX_TITLE_LENGTH 'y')

/-- The record `todo_create` builds on its success path. -/
def created_todo (l : TodoList) (title : String) (d : Option String)
    (p now : Int) : Todo :=
  { id := l.next_id, title := title, description := d.getD "", priority := p,
    status := .pending, created_at := now, updated_at := now }

/-- The record a fully successful `todo_update` leaves behind: provided
title and description applied, priority applied only when in range,
updated_at refreshed. -/
def updated_todo (t : Todo) (title d : Option String) (p now : Int) : Todo :=
  { id := t.id, title := title.getD t.title,
    description := d.getD t.description,
    priority := if PRIORITY_LOW ≤ p ∧ p ≤ PRIORITY_HIGH then p else t.priority,
    status := t.status, created_at := t.created_at, updated_at := now }

/-! ## Helper lemmas -/

/-- `todo_create` on the success path: all guards pass, the record is
appended, next_id increments, the fresh id is returned. -/
theorem todo_create_success (l : TodoList) (title : String) (d : Option String)
    (p now : Int) (hcap : l.todos.length < l.capacity)
    (ht : title.length < MAX_TITLE_LENGTH)
    (hd : ∀ s ∈ d, s.length < MAX_DESC_LENGTH) :
    todo_create l title d p now =
      (.ok l.next_id,
       { l with todos := l.todos ++ [created_todo l title d p now],
                next_id := l.next_id + 1 }) := by
  unfold todo_create created_todo
  rw [if_neg (by omega), if_neg (by omega), if_neg]
  cases d with
  | none => simp
  | some s => simpa using hd s rfl

/-- Every failing branch of `todo_create` leaves the store untouched. -/
theorem todo_create_failure_unchanged (l : TodoList) (title : String)
    (d : Option String) (p now : Int) (e : TodoError)
    (h : (todo_create l title d p now).1 = .error e) :
    (todo_create l title d p now).2 = l := by
  by_cases h1 : l.todos.length ≥ l.capacity
  · unfold todo_create; rw [if_pos h1]
  · by_cases h2 : title.length ≥ MAX_TITLE_LENGTH
    · unfold todo_create; rw [if_neg h1, if_pos h2]
    · by_cases h3 : Option.any (fun s => decide (s.length ≥ MAX_DESC_LENGTH)) d = true
      · unfold todo_create; rw [if_neg h1, if_neg h2, if_pos h3]
      · exfalso
        unfold todo_create at h
        rw [if_neg h1, if_neg h2, if_neg h3] at h
        simp at h

/-- `todo_update_list` on a split sequence: records before the first match
are untouched and the matching record is rewritten by `todo_update_record`;
records after it are untouched. -/
theorem todo_update_list_append (pre post : List Todo) (t : Todo) (id : Int)
    (title d : Option String) (p now : Int)
    (hpre : ∀ u ∈ pre, u.id ≠ id) (ht : t.id = id) :
    todo_update_list (pre ++ t :: post) id title d p now =
      ((todo_update_record t title d p now).1,
       pre ++ (todo_update_record t title d p now).2 :: post) := by
  induction pre with
  | nil => simp [todo_update_list, ht]
  | cons u us ih =>
    have hu : ¬ (u.id == id) = true := by
      simpa using hpre u (by simp)
    simp only [List.cons_append, todo_update_list, if_neg hu, List.append_eq]
    rw [ih (fun v hv => hpre v (by simp [hv]))]

/-- `todo_complete_list` on a split sequence. -/
theorem todo_complete_list_append (pre post : List Todo) (t : Todo) (id : Int)
    (now : Int) (hpre : ∀ u ∈ pre, u.id ≠ id) (ht : t.id = id) :
    todo_complete_list (pre ++ t :: post) id now =
      (none,
       pre ++ (if t.status = .completed then t
               else { t with status := .completed, updated_at := now }) :: post) := by
  induction pre with
  | nil =>
    simp only [List.nil_append, todo_complete_list]
    rw [if_pos (show (t.id == id) = true by simpa using ht)]
    split <;> rfl
  | cons u us ih =>
    have hu : ¬ (u.id == id) = true := by
      simpa using hpre u (by simp)
    simp only [List.cons_append, todo_complete_list, if_neg hu, List.append_eq]
    rw [ih (fun v hv => hpre v (by simp [hv]))]

/-- `todo_mark_pending_list` on a split sequence. -/
theorem todo_mark_pending_list_append (pre post : List Todo) (t : Todo)
    (id : Int) (now : Int) (hpre : ∀ u ∈ pre, u.id ≠ id) (ht : t.id = id) :
    todo_mark_pending_list (pre ++ t :: post) id now =
      (none,
       pre ++ (if t.status = .pending then t
               else { t with status := .pending, updated_at := now }) :: post) := by
  induction pre with
  | nil =>
    simp only [List.nil_append, todo_mark_pending_list]
    rw [if_pos (show (t.id == id) = true by simpa using ht)]
    split <;> rfl
  | cons u us ih =>
    have hu : ¬ (u.id == id) = true := by
      simpa using hpre u (by simp)
    simp only [List.cons_append, todo_mark_pending_list, if_neg hu, List.append_eq]
    rw [ih (fun v hv => hpre v (by simp [hv]))]

/-- Erasing the first match from a split sequence removes exactly the
matching record. -/
theorem eraseP_append_of_first_match (pre post : List Todo) (t : Todo)
    (id : Int) (hpre : ∀ u ∈ pre, u.id ≠ id) (ht : t.id = id) :
    (pre ++ t :: post).eraseP (fun u => u.id == id) = pre ++ post := by
  induction pre with
  | nil => simp [List.eraseP_cons, ht]
  | cons u us ih =>
    have hu : (u.id == id) = false := by
      simpa using hpre u (by simp)
    simp [List.eraseP_cons, hu, ih (fun v hv => hpre v (by simp [hv]))]

/-- A linear scan over records none of which carries the id finds nothing. -/
theorem find_none_of_no_match (xs : List Todo) (id : Int)
    (h : ∀ u ∈ xs, u.id ≠ id) :
    xs.find? (fun u => u.id == id) = none := by
  simp only [List.find?_eq_none, beq_iff_eq]
  exact h

/-- `todo_update_record` when both provided fields validate: the provided
fields are applied, priority only when in range, updated_at refreshed. -/
theorem todo_update_record_success (t : Todo) (title d : Option String)
    (p now : Int)
    (htitle : ∀ s ∈ title, s.length < MAX_TITLE_LENGTH)
    (hd : ∀ s ∈ d, s.length < MAX_DESC_LENGTH) :
    todo_update_record t title d p now = (none, updated_todo t title d p now) := by
  cases title with
  | none =>
    cases d with
    | none =>
      simp only [todo_update_record, todo_update_record_desc,
        todo_update_record_prio, updated_todo]
      split <;> rfl
    | some s =>
      have hs : ¬ s.length ≥ MAX_DESC_LENGTH := by simpa using hd s rfl
      simp only [todo_update_record, todo_update_record_desc,
        todo_update_record_prio, updated_todo, if_neg hs]
      split <;> rfl
  | some s0 =>
    have hs0 : ¬ s0.length ≥ MAX_TITLE_LENGTH := by simpa using htitle s0 rfl
    cases d with
    | none =>
      simp only [todo_update_record, todo_update_record_desc,
        todo_update_record_prio, updated_todo, if_neg hs0]
      split <;> rfl
    | some s =>
      have hs : ¬ s.length ≥ MAX_DESC_LENGTH := by simpa using hd s rfl
      simp only [todo_update_record, todo_update_record_desc,
        todo_update_record_prio, updated_todo, if_neg hs0, if_neg hs]
      split <;> rfl

/-- `todo_update` on a store holding the target record, all provided fields
valid: success, the record is rewritten in place, everything else kept. -/
theorem todo_update_success (l : TodoList) (pre post : List Todo) (t : Todo)
    (id : Int) (title d : Option String) (p now : Int)
    (hl : l.todos = pre ++ t :: post)
    (hpre : ∀ u ∈ pre, u.id ≠ id) (ht : t.id = id)
    (htitle : ∀ s ∈ title, s.length < MAX_TITLE_LENGTH)
    (hd : ∀ s ∈ d, s.length < MAX_DESC_LENGTH) :
    todo_update l id title d p now =
      (none, { l with todos := pre ++ updated_todo t title d p now :: post }) := by
  unfold todo_update
  rw [hl, todo_update_list_append pre post t id title d p now hpre ht,
      todo_update_record_success t title d p now htitle hd]

/-! ## Claim theorems -/

/-- C9: `load` on a target file path that does not exist returns success,
not an error, and yields an empty store with count 0 and next-ID 1. -/
theorem load_missing_file_yields_fresh_empty_store :
    load_todos_from_file todo_list_create none = (none, todo_list_create) ∧
    todo_list_create.todos.length = 0 ∧ todo_list_create.next_id = 1 :=
  ⟨rfl, rfl, rfl⟩

/-- C4: for every store whose records fit the file layout (count within
MAX_TODOS), `save` followed by `load` into a fresh store succeeds and yields
a store whose record sequence (hence count and every per-record field, in
the same order) and next-ID are identical to the original. -/
theorem save_load_roundtrip (orig : TodoList)
    (h : orig.todos.length ≤ MAX_TODOS) :
    (load_todos_from_file todo_list_create (some (save_todos_to_file orig))).1
      = none ∧
    (load_todos_from_file todo_list_create (some (save_todos_to_file orig))).2.todos
      = orig.todos ∧
    (load_todos_from_file todo_list_create (some (save_todos_to_file orig))).2.next_id
      = orig.next_id := by
  simp only [save_todos_to_file, load_todos_from_file]
  rw [if_neg (by omega), if_neg (by simp)]
  simp

/-- Witness for C4 at a concrete one-record store. -/
theorem save_load_roundtrip_witness :
    sampleStore.todos.length ≤ MAX_TODOS ∧
    ((load_todos_from_file todo_list_create (some (save_todos_to_file sampleStore))).1
       = none ∧
     (load_todos_from_file todo_list_create (some (save_todos_to_file sampleStore))).2.todos
       = sampleStore.todos ∧
     (load_todos_from_file todo_list_create (some (save_todos_to_file sampleStore))).2.next_id
       = sampleStore.next_id) :=
  ⟨by decide, save_load_roundtrip sampleStore (by decide)⟩

/-- C5: with valid creation arguments and the count-within-capacity
invariant, `todo_create` fails with CapacityExceeded exactly when count
equals capacity before the call, and on that failure the store is
unchanged. -/
theorem todo_create_capacity_exact (l : TodoList) (title : String)
    (d : Option String) (p now : Int)
    (hinv : l.todos.length ≤ l.capacity)
    (ht : title.length < MAX_TITLE_LENGTH)
    (hd : ∀ s ∈ d, s.length < MAX_DESC_LENGTH) :
    ((todo_create l title d p now).1 = .error .capacityExceeded ↔
       l.todos.length = l.capacity) ∧
    ((todo_create l title d p now).1 = .error .capacityExceeded →
       (todo_create l title d p now).2 = l) := by
  constructor
  · constructor
    · intro h
      by_contra hne
      have hlt : l.todos.length < l.capacity := lt_of_le_of_ne hinv hne
      rw [todo_create_success l title d p now hlt ht hd] at h
      simp at h
    · intro h
      unfold todo_create
      rw [if_pos (by omega)]
  · intro h
    exact todo_create_failure_unchanged l title d p now _ h

/-- Witness for C5 at a store at capacity. -/
theorem todo_create_capacity_exact_witness :
    fullStore.todos.length ≤ fullStore.capacity ∧
    "b".length < MAX_TITLE_LENGTH ∧
    (((todo_create fullStore "b" none 2 0).1 = .error .capacityExceeded ↔
        fullStore.todos.length = fullStore.capacity) ∧
     ((todo_create fullStore "b" none 2 0).1 = .error .capacityExceeded →
        (todo_create fullStore "b" none 2 0).2 = fullStore)) :=
  ⟨by decide, by decide,
   todo_create_capacity_exact fullStore "b" none 2 0 (by decide) (by decide)
     (by simp)⟩

/-- C2 counterexample: `todo_create` on the fresh store with the empty
title succeeds (returns id 1) and appends a record, instead of failing with
a validation error. -/
theorem create_empty_title_not_rejected :
    (todo_create todo_list_create "" none PRIORITY_MEDIUM 0).1 = .ok 1 ∧
    (todo_create todo_list_create "" none PRIORITY_MEDIUM 0).2.todos.length
      = 1 := by
  constructor <;> rfl

/-- C2 (amended): `todo_create` does not check for emptiness, only maximum
lengths: with the store below capacity and a valid description, create with
the empty title succeeds, returns the fresh id, and appends a record whose
title is empty. -/
theorem todo_create_empty_title_succeeds (l : TodoList) (d : Option String)
    (p now : Int) (hcap : l.todos.length < l.capacity)
    (hd : ∀ s ∈ d, s.length < MAX_DESC_LENGTH) :
    (todo_create l "" d p now).1 = .ok l.next_id ∧
    (todo_create l "" d p now).2.todos
      = l.todos ++ [created_todo l "" d p now] := by
  rw [todo_create_success l "" d p now hcap (by decide) hd]
  exact ⟨rfl, rfl⟩

/-- Witness for the amended C2 at the fresh store. -/
theorem todo_create_empty_title_succeeds_witness :
    todo_list_create.todos.length < todo_list_create.capacity ∧
    ((todo_create todo_list_create "" none 3 7).1 = .ok todo_list_create.next_id ∧
     (todo_create todo_list_create "" none 3 7).2.todos
       = todo_list_create.todos ++ [created_todo todo_list_create "" none 3 7]) :=
  ⟨by decide,
   todo_create_empty_title_succeeds todo_list_create none 3 7 (by decide) (by simp)⟩

/-- C8: on a store holding a record with the given id, `todo_update` with a
priority outside [PRIORITY_LOW, PRIORITY_HIGH] (and otherwise valid
arguments) succeeds, and the record's priority is silently left unchanged
rather than reported as an error. -/
theorem todo_update_priority_out_of_range_ignored (l : TodoList)
    (pre post : List Todo) (t : Todo) (id : Int) (title d : Option String)
    (p now : Int) (hl : l.todos = pre ++ t :: post)
    (hpre : ∀ u ∈ pre, u.id ≠ id) (ht : t.id = id)
    (htitle : ∀ s ∈ title, s.length < MAX_TITLE_LENGTH)
    (hd : ∀ s ∈ d, s.length < MAX_DESC_LENGTH)
    (hp : p < PRIORITY_LOW ∨ PRIORITY_HIGH < p) :
    (todo_update l id title d p now).1 = none ∧
    (todo_update l id title d p now).2.todos
      = pre ++ updated_todo t title d p now :: post ∧
    (updated_todo t title d p now).priority = t.priority := by
  rw [todo_update_success l pre post t id title d p now hl hpre ht htitle hd]
  refine ⟨rfl, rfl, ?_⟩
  unfold updated_todo
  rw [if_neg (by unfold PRIORITY_LOW PRIORITY_HIGH at *; omega)]

/-- Witness for C8 on the one-record store with priority 9. -/
theorem todo_update_priority_out_of_range_ignored_witness :
    sampleStore.todos = [] ++ sampleTodo :: [] ∧
    sampleTodo.id = 1 ∧
    ((todo_update sampleStore 1 none none 9 3).1 = none ∧
     (todo_update sampleStore 1 none none 9 3).2.todos
       = [] ++ updated_todo sampleTodo none none 9 3 :: [] ∧
     (updated_todo sampleTodo none none 9 3).priority = sampleTodo.priority) :=
  ⟨rfl, rfl,
   todo_update_priority_out_of_range_ignored sampleStore [] [] sampleTodo 1
     none none 9 3 rfl (by simp) rfl (by simp) (by simp)
     (Or.inr (by decide))⟩

/-- C10: `todo_update` with no effective change requested (no title, no
description, priority out of the valid range) still succeeds and refreshes
the record's updated_at to the current time, leaving every other field of
that record, every other record, and the rest of the store unchanged. -/
theorem todo_update_no_change_refreshes_timestamp (l : TodoList)
    (pre post : List Todo) (t : Todo) (id : Int) (p now : Int)
    (hl : l.todos = pre ++ t :: post)
    (hpre : ∀ u ∈ pre, u.id ≠ id) (ht : t.id = id)
    (hp : p < PRIORITY_LOW ∨ PRIORITY_HIGH < p) :
    (todo_update l id none none p now).1 = none ∧
    (todo_update l id none none p now).2.todos
      = pre ++ { t with updated_at := now } :: post ∧
    (todo_update l id none none p now).2.next_id = l.next_id ∧
    (todo_update l id none none p now).2.capacity = l.capacity := by
  have hrec : updated_todo t none none p now = { t with updated_at := now } := by
    unfold updated_todo
    rw [if_neg (by unfold PRIORITY_LOW PRIORITY_HIGH at *; omega)]
    rfl
  rw [todo_update_success l pre post t id none none p now hl hpre ht
      (by simp) (by simp), hrec]
  exact ⟨rfl, rfl, rfl, rfl⟩

/-- Witness for C10 on the one-record store with priority -1. -/
theorem todo_update_no_change_refreshes_timestamp_witness :
    sampleStore.todos = [] ++ sampleTodo :: [] ∧
    sampleTodo.id = 1 ∧
    ((todo_update sampleStore 1 none none (-1) 4).1 = none ∧
     (todo_update sampleStore 1 none none (-1) 4).2.todos
       = [] ++ { sampleTodo with updated_at := 4 } :: [] ∧
     (todo_update sampleStore 1 none none (-1) 4).2.next_id = sampleStore.next_id ∧
     (todo_update sampleStore 1 none none (-1) 4).2.capacity = sampleStore.capacity) :=
  ⟨rfl, rfl,
   todo_update_no_change_refreshes_timestamp sampleStore [] [] sampleTodo 1
     (-1) 4 rfl (by simp) rfl (Or.inl (by decide))⟩

set_option maxRecDepth 10000 in
/-- C1 counterexample: on a store holding record 1 (title "a"), update with
a valid new title "b" and an over-length description fails with a
validation error, yet the record's title has already been changed to "b":
the update is not all-or-nothing. -/
theorem todo_update_not_all_or_nothing :
    (todo_update sampleStore 1 (some "b") (some longDesc) (-1) 5).1
      = some .validationError ∧
    (todo_update sampleStore 1 (some "b") (some longDesc) (-1) 5).2.todos
      = [{ sampleTodo with title := "b" }] := by
  constructor <;> rfl


/-- C1 (amended): a validation failure of `todo_update` aborts the update
before later fields are applied, but keeps fields applied earlier: if a
provided title is over-length nothing at all is modified, while if the
title is valid (or absent) and a provided description is over-length, the
update fails with the provided title already applied — description,
priority, status, timestamps and all other records unchanged. -/
theorem todo_update_validation_keeps_earlier_fields (l : TodoList) (pre post : List Todo)
    (t : Todo) (id : Int) (title d : Option String) (p now : Int)
    (hl : l.todos = pre ++ t :: post)
    (hpre : ∀ u ∈ pre, u.id ≠ id) (ht : t.id = id) :
    (∀ s ∈ title, s.length ≥ MAX_TITLE_LENGTH →
       todo_update l id title d p now = (some .validationError, l)) ∧
    ((∀ s ∈ title, s.length < MAX_TITLE_LENGTH) →
     ∀ s ∈ d, s.length ≥ MAX_DESC_LENGTH →
       (todo_update l id title d p now).1 = some .validationError ∧
       (todo_update l id title d p now).2.todos
         = pre ++ { t with title := title.getD t.title } :: post) := by
  constructor
  · intro s hs hlen
    cases title with
    | none => cases hs
    | some s0 =>
      cases hs
      unfold todo_update
      rw [hl, todo_update_list_append pre post t id _ d p now hpre ht]
      simp only [todo_update_record, if_pos hlen]
      rw [← hl]
  · intro htitle s hs hlen
    cases d with
    | none => cases hs
    | some s1 =>
      cases hs
      unfold todo_update
      rw [hl, todo_update_list_append pre post t id title _ p now hpre ht]
      cases title with
      | none =>
        simp only [todo_update_record, todo_update_record_desc, if_pos hlen]
        constructor <;> simp [Option.getD]
      | some s0 =>
        have hs0 : ¬ s0.length ≥ MAX_TITLE_LENGTH := by
          simpa using htitle s0 rfl
        simp only [todo_update_record, todo_update_record_desc, if_neg hs0,
          if_pos hlen]
        constructor <;> simp [Option.getD]

/-- C6: `setStatus` to the status the record already has returns success
and leaves the whole store (in particular updated_at) unchanged, while a
real transition (pending to completed or completed to pending) returns
success and refreshes updated_at to the current time, touching nothing
else. -/
theorem set_status_updated_at_semantics (l : TodoList) (pre post : List Todo)
    (t : Todo) (id : Int) (now : Int)
    (hl : l.todos = pre ++ t :: post)
    (hpre : ∀ u ∈ pre, u.id ≠ id) (ht : t.id = id) :
    (t.status = .completed → todo_complete l id now = (none, l)) ∧
    (t.status = .pending →
       todo_complete l id now =
         (none, { l with todos :=
            pre ++ { t with status := .completed, updated_at := now } :: post })) ∧
    (t.status = .pending → todo_mark_pending l id now = (none, l)) ∧
    (t.status = .completed →
       todo_mark_pending l id now =
         (none, { l with todos :=
            pre ++ { t with status := .pending, updated_at := now } :: post })) := by
  unfold todo_complete todo_mark_pending
  rw [hl, todo_complete_list_append pre post t id now hpre ht,
      todo_mark_pending_list_append pre post t id now hpre ht]
  refine ⟨?_, ?_, ?_, ?_⟩
  · intro h
    rw [if_pos h, ← hl]
  · intro h
    rw [if_neg (by simp [h])]
  · intro h
    rw [if_pos h, ← hl]
  · intro h
    rw [if_neg (by simp [h])]

/-- Witness for C6 on the one-record store (record 1 is pending). -/
theorem set_status_updated_at_semantics_witness :
    sampleStore.todos = [] ++ sampleTodo :: [] ∧
    sampleTodo.id = 1 ∧
    ((sampleTodo.status = .completed →
        todo_complete sampleStore 1 6 = (none, sampleStore)) ∧
     (sampleTodo.status = .pending →
        todo_complete sampleStore 1 6 =
          (none, { sampleStore with todos :=
             [] ++ { sampleTodo with status := .completed, updated_at := 6 } :: [] })) ∧
     (sampleTodo.status = .pending →
        todo_mark_pending sampleStore 1 6 = (none, sampleStore)) ∧
     (sampleTodo.status = .completed →
        todo_mark_pending sampleStore 1 6 =
          (none, { sampleStore with todos :=
             [] ++ { sampleTodo with status := .pending, updated_at := 6 } :: [] }))) :=
  ⟨rfl, rfl,
   set_status_updated_at_semantics sampleStore [] [] sampleTodo 1 6 rfl
     (by simp) rfl⟩

/-- C7: deleting the only record carrying the id succeeds, a subsequent
findById on that id returns not-found, and the remaining records keep
their original relative order and ids (the sequence is compacted). -/
theorem todo_delete_then_find_not_found (l : TodoList) (pre post : List Todo)
    (t : Todo) (id : Int)
    (hl : l.todos = pre ++ t :: post)
    (hpre : ∀ u ∈ pre, u.id ≠ id) (ht : t.id = id)
    (hpost : ∀ u ∈ post, u.id ≠ id) :
    (todo_delete l id).1 = none ∧
    (todo_delete l id).2.todos = pre ++ post ∧
    todo_find_by_id (todo_delete l id).2 id = none := by
  have hany : (l.todos.any (fun u => u.id == id)) = true := by
    rw [hl]
    simp [ht]
  have herase : l.todos.eraseP (fun u => u.id == id) = pre ++ post := by
    rw [hl]
    exact eraseP_append_of_first_match pre post t id hpre ht
  have h2 : (todo_delete l id).2.todos = pre ++ post := by
    unfold todo_delete
    rw [if_pos hany]
    exact herase
  refine ⟨by unfold todo_delete; rw [if_pos hany], h2, ?_⟩
  unfold todo_find_by_id
  rw [h2]
  refine find_none_of_no_match _ id (fun u hu => ?_)
  rcases List.mem_append.1 hu with h | h
  exacts [hpre u h, hpost u h]

/-- Witness for C7 on the one-record store. -/
theorem todo_delete_then_find_not_found_witness :
    sampleStore.todos = [] ++ sampleTodo :: [] ∧
    sampleTodo.id = 1 ∧
    ((todo_delete sampleStore 1).1 = none ∧
     (todo_delete sampleStore 1).2.todos = [] ++ [] ∧
     todo_find_by_id (todo_delete sampleStore 1).2 1 = none) :=
  ⟨rfl, rfl,
   todo_delete_then_find_not_found sampleStore [] [] sampleTodo 1 rfl
     (by simp) rfl (by simp)⟩

/-- `todo_delete` never changes the next-ID counter. -/
theorem todo_delete_next_id (l : TodoList) (id : Int) :
    (todo_delete l id).2.next_id = l.next_id := by
  unfold todo_delete
  split <;> rfl

/-- `todo_create` either fails leaving the store untouched, or succeeds
returning the current next-ID, appending the record, and incrementing the
counter. -/
theorem todo_create_cases (l : TodoList) (title : String) (d : Option String)
    (p now : Int) :
    (∃ e, todo_create l title d p now = (.error e, l)) ∨
    todo_create l title d p now =
      (.ok l.next_id,
       { l with todos := l.todos ++ [created_todo l title d p now],
                next_id := l.next_id + 1 }) := by
  unfold todo_create created_todo
  split
  · exact Or.inl ⟨_, rfl⟩
  · split
    · exact Or.inl ⟨_, rfl⟩
    · split
      · exact Or.inl ⟨_, rfl⟩
      · exact Or.inr rfl

/-- Along any operation sequence the next-ID counter never decreases, the
collected create-results are pairwise strictly increasing, and every
collected id lies in [initial next-ID, final next-ID). -/
theorem runOps_ids_fresh (l : TodoList) (ops : List Op) :
    l.next_id ≤ (runOps l ops).1.next_id ∧
    (runOps l ops).2.Pairwise (· < ·) ∧
    ∀ i ∈ (runOps l ops).2, l.next_id ≤ i ∧ i < (runOps l ops).1.next_id := by
  induction ops generalizing l with
  | nil => simp [runOps]
  | cons op ops ih =>
    cases op with
    | delete id =>
      simp only [runOps]
      have h := ih (todo_delete l id).2
      rw [todo_delete_next_id] at h
      exact h
    | create title d p now =>
      rcases todo_create_cases l title d p now with ⟨e, he⟩ | he
      · simp only [runOps, he]
        exact ih l
      · simp only [runOps, he]
        have h := ih { l with todos := l.todos ++ [created_todo l title d p now],
                              next_id := l.next_id + 1 }
        simp only [TodoList.next_id] at h
        obtain ⟨hmono, hpair, hmem⟩ := h
        refine ⟨by omega, ?_, ?_⟩
        · refine List.Pairwise.cons ?_ hpair
          intro j hj
          have := hmem j hj
          omega
        · intro i hi
          rcases List.mem_cons.1 hi with rfl | hi
          · exact ⟨le_refl _, by omega⟩
          · have := hmem i hi
            omega

/-- C3: starting from the fresh store, over any create/delete sequence the
ids returned by successful creates are pairwise strictly increasing in
order of assignment (hence never repeated, even after intervening deletes),
and the next-ID counter ends strictly greater than every id ever
assigned. -/
theorem todo_ids_strictly_increasing (ops : List Op) :
    (runOps todo_list_create ops).2.Pairwise (· < ·) ∧
    ∀ i ∈ (runOps todo_list_create ops).2,
      i < (runOps todo_list_create ops).1.next_id :=
  ⟨(runOps_ids_fresh todo_list_create ops).2.1,
   fun i hi => ((runOps_ids_fresh todo_list_create ops).2.2 i hi).2⟩

/-- Witness for C3 on a concrete session (create, create, delete 1,
create). -/
theorem todo_ids_strictly_increasing_witness :
    (runOps todo_list_create sampleOps).2.Pairwise (· < ·) ∧
    ∀ i ∈ (runOps todo_list_create sampleOps).2,
      i < (runOps todo_list_create sampleOps).1.next_id :=
  todo_ids_strictly_increasing sampleOps

set_option maxRecDepth 10000 in
/-- Witness for the amended C1: a valid title with an over-length
description on the one-record store. -/
theorem todo_update_validation_keeps_earlier_fields_witness :
    sampleStore.todos = [] ++ sampleTodo :: [] ∧
    sampleTodo.id = 1 ∧
    longDesc.length ≥ MAX_DESC_LENGTH ∧
    ((todo_update sampleStore 1 (some "b") (some longDesc) (-1) 5).1
       = some .validationError ∧
     (todo_update sampleStore 1 (some "b") (some longDesc) (-1) 5).2.todos
       = [] ++ { sampleTodo with title := (some "b").getD sampleTodo.title } :: []) :=
  ⟨rfl, rfl, by rfl,
   (todo_update_validation_keeps_earlier_fields sampleStore [] [] sampleTodo 1 (some "b")
       (some longDesc) (-1) 5 rfl (by simp) rfl).2
     (by intro s hs; cases hs; decide) longDesc rfl (by rfl)⟩
